import Mathlib

/-!
# Dubiex contracts — verification of the specification against the code

Shallow embedding of the `dubiexchange/contracts` repository.

The repository ships the TypeScript utility layer (`src/utils.ts`), the EIP-712
type declarations (`src/types.ts`) and the test suite (`tests/dubiex.test.ts`).
The Dubiex Solidity contract itself (order ledger, batch dispatcher,
meta-transaction relay, kill switch) is not part of the repository sources, so
those components are modelled from the specification (each such definition
carries a doc comment starting with `Modelled from the spec:`); where the test
suite pins a behaviour, the model follows the tests.  The event codec
(`packDataFromOrderEvent` / `unpackPackedDataFromOrderEvent`), the EIP-712
input shapes, the signed-message builders and the test oracle
`calculateValues` are embedded directly from the TypeScript sources.

BN.js values are arbitrary-precision non-negative integers, embedded as `Nat`;
bitwise operations map to `Nat`'s `&&&`, `|||`, `<<<`, `>>>`.
-/

namespace Dubiex

/-! ## Event codec (embedded from `src/utils.ts`) -/

/-- The constant `2^96 - 1`, the `bitmask96` of `src/utils.ts`. -/
def bitmask96 : Nat := 2 ^ 96 - 1

/-- The constant `2^32 - 1`, the `bitmask32` of `src/utils.ts`. -/
def bitmask32 : Nat := 2 ^ 32 - 1

/-- Result record of `unpackPackedDataFromOrderEvent`. -/
structure UnpackedOrderEventData where
  makerValue : Nat
  takerValue : Nat
  orderPairAlias : Nat
deriving DecidableEq, Repr

/-- Embedded from `src/utils.ts`:
`unpackPackedDataFromOrderEvent` masks out the low 96 bits, the next 96 bits
and the following 32 bits of the packed word. -/
def unpackPackedDataFromOrderEvent (packedData : Nat) : UnpackedOrderEventData :=
  { makerValue := packedData &&& bitmask96
    takerValue := (packedData >>> 96) &&& bitmask96
    orderPairAlias := (packedData >>> 192) &&& bitmask32 }

/-- Embedded from `src/utils.ts`:
`packDataFromOrderEvent` ORs the masked `makerValue` into the low 96 bits,
the masked `takerValue` shifted by 96, and the masked `orderPairAlias`
shifted by 192, starting from `new BN(0)`. -/
def packDataFromOrderEvent (makerValue takerValue orderPairAlias : Nat) : Nat :=
  ((0 ||| (makerValue &&& bitmask96))
      ||| ((takerValue &&& bitmask96) <<< 96))
      ||| ((orderPairAlias &&& bitmask32) <<< 192)

/-! ## Signed boosted take-order message (embedded from `src/utils.ts`) -/

/-- JavaScript values a caller can pass for the optional `maxTakerMakerRatio`
argument of `createSignedBoostedTakeOrderMessage` (typed `any` in the source):
the argument can be omitted (`undefined`), a plain JS number, or a BN.js
object. -/
inductive JsRatioArg where
  | undef : JsRatioArg
  | num : Nat → JsRatioArg
  | bn : Nat → JsRatioArg
deriving DecidableEq, Repr

/-- JavaScript truthiness of the argument: `undefined` and the number `0`
are falsy; a BN.js object is always truthy (even when it holds zero). -/
def JsRatioArg.isFalsy : JsRatioArg → Bool
  | .undef => true
  | .num n => n == 0
  | .bn _ => false

/-- Numeric value an argument carries (an omitted argument carries 0;
never read on the falsy branch). -/
def JsRatioArg.value : JsRatioArg → Nat
  | .undef => 0
  | .num n => n
  | .bn n => n

/-- Embedded from `src/utils.ts` line 96:
`(maxTakerMakerRatio || new BN("1000000000000000000")).toString()` — the
`maxTakerMakerRatio` field placed into the signed `BoostedTakeOrder` intent. -/
def takeOrderMessageMaxRatio (arg : JsRatioArg) : Nat :=
  if arg.isFalsy then 1000000000000000000 else arg.value

/-! ## Data model of the order ledger

The Dubiex contract is not part of the repository sources; the ledger below is
modelled from the specification (sections 3, 4.2, 4.4, 4.5, 4.6) and pinned
against the behaviour the test suite asserts. -/

/-- Currency kinds, from the `CurrencyType` enum of the test suite
(`NULL` never occurs in a live order and is omitted). -/
inductive CurrencyType where
  | eth
  | erc20
  | boostableErc20
  | erc721
deriving DecidableEq, Repr

/-- A currency kind is fungible unless it is a non-fungible (ERC721) asset. -/
def CurrencyType.isFungible : CurrencyType → Bool
  | .erc721 => false
  | _ => true

/-- Account addresses, abstracted to naturals. -/
abbrev Addr := Nat

/-- Order pair, embedded from the `OrderPair` EIP-712 declaration in
`src/types.ts`. -/
structure OrderPair where
  makerContractAddress : Addr
  takerContractAddress : Addr
  makerCurrencyType : CurrencyType
  takerCurrencyType : CurrencyType
deriving DecidableEq, Repr

/-- Modelled from the spec: an order owns `makerValue`/`takerValue`
(both `< 2^96` in the contract), a pair, ancestor/successor references
(0 meaning none) and the hidden flag. `id = 0` is reserved for
"does not exist", which the model represents as `none`. -/
structure Order where
  id : Nat
  makerValue : Nat
  takerValue : Nat
  pair : OrderPair
  ancestorOrderId : Nat
  successorOrderId : Nat
  isHidden : Bool
deriving DecidableEq, Repr

/-- Make-order request, embedded from the `MakeOrderInput` EIP-712
declaration in `src/types.ts` (`orderId = 0` requests creation,
`orderId ≠ 0` a ratio upsert of that order). -/
structure MakeOrderInput where
  makerValue : Nat
  takerValue : Nat
  pair : OrderPair
  orderId : Nat
  ancestorOrderId : Nat
  updatedRatioWei : Nat
deriving DecidableEq, Repr

/-- Take-order request, embedded from the `TakeOrderInput` EIP-712
declaration in `src/types.ts`. -/
structure TakeOrderInput where
  id : Nat
  maker : Addr
  takerValue : Nat
  maxTakerMakerRatio : Nat
deriving DecidableEq, Repr

/-- Cancel-order request, embedded from the `CancelOrderInput` EIP-712
declaration in `src/types.ts`. -/
structure CancelOrderInput where
  id : Nat
  maker : Addr
deriving DecidableEq, Repr

/-- Failure taxonomy, modelled from the spec section 7 and the revert
messages asserted by the test suite. -/
inductive DubiexError where
  | invalidInput
  | notFound
  | unauthorized
  | replayRejected
  | overflow
  | immutableAssetUpdate
  | chainConflict
  | killSwitchActive
  | killSwitchAlreadyOn
  | insufficientSupply
  | invalidSignature
  | ratioExceeded
deriving DecidableEq, Repr

/-- The fixed-point scale of ratios: `ether("1") = 10^18`. -/
def WAD : Nat := 10 ^ 18

/-- Modelled from the spec: the kill-switch threshold, one billion tokens
(18 decimals), as asserted by the kill-switch tests. -/
def killSwitchThreshold : Nat := 1000000000 * WAD

/-- The bound `2^96` on stored order values. -/
def uint96Bound : Nat := 2 ^ 96

/-- Pointwise update of the order table at one `(maker, id)` slot. -/
def setOrder (f : Addr → Nat → Option Order) (maker : Addr) (id : Nat) (o : Option Order) :
    Addr → Nat → Option Order :=
  fun m i => if m = maker ∧ i = id then o else f m i

/-- Pointwise update of the per-maker order counter. -/
def setCount (f : Addr → Nat) (maker : Addr) (n : Nat) : Addr → Nat :=
  fun m => if m = maker then n else f m

/-- Increment of one signer's stored meta-transaction nonce. -/
def bumpNonce (f : Addr → Nat) (signer : Addr) : Addr → Nat :=
  fun s => if s = signer then f s + 1 else f s

/-- Modelled from the spec: the mutable contract state — the order table
keyed by `(maker, id)`, the per-maker id counter, the one-way kill-switch
flag, the two monitored external token supplies and the per-signer
meta-transaction nonces. -/
structure DubiexState where
  orders : Addr → Nat → Option Order
  ordersCount : Addr → Nat
  killSwitchOn : Bool
  prpsTotalSupply : Nat
  dubiTotalSupply : Nat
  nonces : Addr → Nat

/-- The state with no orders, the kill switch off and zero supplies. -/
def emptyState : DubiexState :=
  { orders := fun _ _ => none
    ordersCount := fun _ => 0
    killSwitchOn := false
    prpsTotalSupply := 0
    dubiTotalSupply := 0
    nonces := fun _ => 0 }

/-! ## Order ledger operations (modelled from the spec) -/

/-- Modelled from the spec section 4.2 (Create, `orderId == 0`): requires the
kill switch off and positive values; assigns the next per-maker id; with a
non-zero `ancestorOrderId` the ancestor must exist and have no successor yet,
the new order is stored hidden and the ancestor's `successorOrderId` is set to
the new id. Returns the new order id. -/
def makeOrderCreate (st : DubiexState) (maker : Addr) (inp : MakeOrderInput) :
    Except DubiexError (DubiexState × Nat) :=
  if st.killSwitchOn then .error .killSwitchActive
  else if inp.makerValue = 0 ∨ inp.takerValue = 0 then .error .invalidInput
  else
    let newId := st.ordersCount maker + 1
    if inp.ancestorOrderId = 0 then
      .ok ({ st with
              orders := setOrder st.orders maker newId
                (some { id := newId, makerValue := inp.makerValue,
                        takerValue := inp.takerValue, pair := inp.pair,
                        ancestorOrderId := 0, successorOrderId := 0, isHidden := false })
              ordersCount := setCount st.ordersCount maker newId }, newId)
    else
      match st.orders maker inp.ancestorOrderId with
      | none => .error .notFound
      | some anc =>
        if anc.successorOrderId ≠ 0 then .error .chainConflict
        else
          .ok ({ st with
                  orders := setOrder
                    (setOrder st.orders maker inp.ancestorOrderId
                      (some { anc with successorOrderId := newId }))
                    maker newId
                    (some { id := newId, makerValue := inp.makerValue,
                            takerValue := inp.takerValue, pair := inp.pair,
                            ancestorOrderId := inp.ancestorOrderId,
                            successorOrderId := 0, isHidden := true })
                  ordersCount := setCount st.ordersCount maker newId }, newId)

/-- Modelled from the spec section 4.2 (Update, `orderId != 0`): the order must
exist and be visible, both pair kinds must be fungible, the ratio must be
non-zero; recomputes `takerValue = makerValue * ratio / 10^18` leaving
`makerValue` and the chain references untouched; fails with an overflow error
when the result does not fit in 96 bits. -/
def updateOrder (st : DubiexState) (maker : Addr) (orderId ratio : Nat) :
    Except DubiexError DubiexState :=
  if st.killSwitchOn then .error .killSwitchActive
  else
    match st.orders maker orderId with
    | none => .error .notFound
    | some ord =>
      if ord.isHidden then .error .notFound
      else if ¬(ord.pair.makerCurrencyType.isFungible ∧ ord.pair.takerCurrencyType.isFungible)
        then .error .immutableAssetUpdate
      else if ratio = 0 then .error .invalidInput
      else if uint96Bound ≤ ord.makerValue * ratio / WAD then .error .overflow
      else
        .ok { st with
               orders := setOrder st.orders maker orderId
                 (some { ord with takerValue := ord.makerValue * ratio / WAD }) }

/-- Modelled from the spec section 4.2: the unified `makeOrder` entry point —
creation when `orderId = 0`, ratio upsert otherwise.  On the upsert path only
`orderId` and `updatedRatioWei` are consumed; the caller-supplied
`makerValue`, `takerValue` and `pair` are ignored. -/
def makeOrder (st : DubiexState) (maker : Addr) (inp : MakeOrderInput) :
    Except DubiexError (DubiexState × Nat) :=
  if inp.orderId = 0 then makeOrderCreate st maker inp
  else
    match updateOrder st maker inp.orderId inp.updatedRatioWei with
    | .error e => .error e
    | .ok st' => .ok (st', inp.orderId)

/-- Result of a fill: the new state and the settled maker/taker amounts. -/
structure FillResult where
  state : DubiexState
  filledMakerValue : Nat
  filledTakerValue : Nat

/-- Modelled from the spec section 4.2 (Fill): the order table after a fill —
the filled amounts are subtracted, the order is destroyed when `takerValue`
is exhausted, and in that case the still-existing successor is revealed
(hidden flag cleared); a missing successor is left untouched (inert
reference). -/
def finalizeFillOrders (st : DubiexState) (maker : Addr) (ord : Order)
    (filledMaker filledTaker : Nat) : Addr → Nat → Option Order :=
  if ord.takerValue - filledTaker = 0 then
    let cleared := setOrder st.orders maker ord.id none
    if ord.successorOrderId ≠ 0 then
      match st.orders maker ord.successorOrderId with
      | some succ =>
        setOrder cleared maker ord.successorOrderId (some { succ with isHidden := false })
      | none => cleared
    else cleared
  else
    setOrder st.orders maker ord.id
      (some { ord with makerValue := ord.makerValue - filledMaker,
                       takerValue := ord.takerValue - filledTaker })

/-- Modelled from the spec section 4.2 (Fill): applies a computed fill to the
ledger and reports the settled amounts. -/
def finalizeFill (st : DubiexState) (maker : Addr) (ord : Order)
    (filledMaker filledTaker : Nat) : FillResult :=
  { state := { st with orders := finalizeFillOrders st maker ord filledMaker filledTaker }
    filledMakerValue := filledMaker, filledTakerValue := filledTaker }

/-- Modelled from the spec section 4.2 (Fill): the order must exist and be
visible (hidden behaves as missing); a zero fill is invalid; the fill is
rejected when the order's current ratio `takerValue * 10^18 / makerValue`
exceeds the supplied ceiling.  With two fungible legs the filled taker amount
is `min(requested, takerValue)` and the maker amount is proportional; with a
non-fungible leg the fill is all-or-nothing. -/
def takeOrder (st : DubiexState) (taker : Addr) (inp : TakeOrderInput) :
    Except DubiexError FillResult :=
  if st.killSwitchOn then .error .killSwitchActive
  else
    match st.orders inp.maker inp.id with
    | none => .error .notFound
    | some ord =>
      if ord.isHidden then .error .notFound
      else if inp.takerValue = 0 then .error .invalidInput
      else if inp.maxTakerMakerRatio < ord.takerValue * WAD / ord.makerValue then
        .error .ratioExceeded
      else if ord.pair.makerCurrencyType.isFungible ∧ ord.pair.takerCurrencyType.isFungible then
        .ok (finalizeFill st inp.maker ord
              (ord.makerValue * min inp.takerValue ord.takerValue / ord.takerValue)
              (min inp.takerValue ord.takerValue))
      else
        if inp.takerValue ≠ ord.takerValue then .error .invalidInput
        else .ok (finalizeFill st inp.maker ord ord.makerValue ord.takerValue)

/-- Modelled from the spec section 4.2 (Cancel): the order must exist; the
caller must be the maker unless the kill switch is on; destroys the order and
returns the remaining `makerValue`, which is refunded to the maker. -/
def cancelOrder (st : DubiexState) (caller : Addr) (inp : CancelOrderInput) :
    Except DubiexError (DubiexState × Nat) :=
  match st.orders inp.maker inp.id with
  | none => .error .notFound
  | some ord =>
    if caller ≠ inp.maker ∧ st.killSwitchOn = false then .error .unauthorized
    else .ok ({ st with orders := setOrder st.orders inp.maker inp.id none }, ord.makerValue)

/-- Modelled from the spec section 4.6: the permissionless kill switch —
fails when already on; otherwise succeeds exactly when one of the two
monitored supplies is at or above the fixed threshold. -/
def activateKillSwitch (st : DubiexState) : Except DubiexError DubiexState :=
  if st.killSwitchOn then .error .killSwitchAlreadyOn
  else if killSwitchThreshold ≤ st.prpsTotalSupply ∨ killSwitchThreshold ≤ st.dubiTotalSupply then
    .ok { st with killSwitchOn := true }
  else .error .insufficientSupply

/-! ## Batch dispatcher (modelled from the spec section 4.4) -/

/-- Atomic fold of the create/update path: the first failing item aborts the
whole batch. -/
def makeOrdersGo (maker : Addr) : DubiexState → List MakeOrderInput →
    Except DubiexError DubiexState
  | st, [] => .ok st
  | st, inp :: rest =>
    match makeOrder st maker inp with
    | .error e => .error e
    | .ok (st', _) => makeOrdersGo maker st' rest

/-- Modelled from the spec section 4.4 (Atomic): `makeOrders` rejects the
kill-switch state and empty input, then applies every item or none. -/
def makeOrders (st : DubiexState) (maker : Addr) (inps : List MakeOrderInput) :
    Except DubiexError DubiexState :=
  if st.killSwitchOn then .error .killSwitchActive
  else if inps.isEmpty then .error .invalidInput
  else makeOrdersGo maker st inps

/-- Isolated fold of the fill path: a failing item is skipped and the batch
continues on the unchanged state. -/
def takeOrdersGo (taker : Addr) : DubiexState → List TakeOrderInput → DubiexState
  | st, [] => st
  | st, inp :: rest =>
    match takeOrder st taker inp with
    | .error _ => takeOrdersGo taker st rest
    | .ok r => takeOrdersGo taker r.state rest

/-- Modelled from the spec section 4.4 (Isolated): `takeOrders` fails as a
whole only for the kill switch or empty input; individual failing items are
skipped. -/
def takeOrders (st : DubiexState) (taker : Addr) (inps : List TakeOrderInput) :
    Except DubiexError DubiexState :=
  if st.killSwitchOn then .error .killSwitchActive
  else if inps.isEmpty then .error .invalidInput
  else .ok (takeOrdersGo taker st inps)

/-- Isolated fold of the cancel path.  An item whose order is missing is
skipped; an unauthorized item (non-maker caller while the kill switch is off)
aborts the whole batch — this follows the test suite
(`dubiex.test.ts` lines 1256-1270), which expects the batch call to revert
with the maker-authorization error. -/
def cancelOrdersGo (caller : Addr) : DubiexState → List CancelOrderInput →
    Except DubiexError DubiexState
  | st, [] => .ok st
  | st, inp :: rest =>
    match cancelOrder st caller inp with
    | .ok (st', _) => cancelOrdersGo caller st' rest
    | .error .unauthorized => .error .unauthorized
    | .error _ => cancelOrdersGo caller st rest

/-- Modelled from the spec section 4.4: `cancelOrders` rejects empty input and
otherwise folds the isolated cancel path (no kill-switch gate: cancellation
stays available while tripped). -/
def cancelOrders (st : DubiexState) (caller : Addr) (inps : List CancelOrderInput) :
    Except DubiexError DubiexState :=
  if inps.isEmpty then .error .invalidInput
  else cancelOrdersGo caller st inps

/-! ## Meta-transaction relay (modelled from the spec section 4.5)

Signature recovery is abstracted: a detached signature is represented by the
address it recovers to for the signed message. -/

/-- Booster fuel descriptor, embedded from the `BoosterFuel` EIP-712
declaration in `src/types.ts`. -/
structure BoosterFuel where
  dubi : Nat
  unlockedPrps : Nat
  lockedPrps : Nat
  intrinsicFuel : Nat
deriving DecidableEq, Repr

/-- Boosted make-order intent, embedded from the `BoostedMakeOrder` EIP-712
declaration in `src/types.ts` (the booster payload is reduced to its nonce). -/
structure BoostedMakeOrder where
  input : MakeOrderInput
  maker : Addr
  fuel : BoosterFuel
  nonce : Nat
deriving DecidableEq, Repr

/-- Boosted take-order intent, embedded from the `BoostedTakeOrder` EIP-712
declaration in `src/types.ts` (the booster payload is reduced to its nonce). -/
structure BoostedTakeOrder where
  input : TakeOrderInput
  taker : Addr
  fuel : BoosterFuel
  nonce : Nat
deriving DecidableEq, Repr

/-- Boosted cancel-order intent, embedded from the `BoostedCancelOrder`
EIP-712 declaration in `src/types.ts`. -/
structure BoostedCancelOrder where
  input : CancelOrderInput
  fuel : BoosterFuel
  nonce : Nat
deriving DecidableEq, Repr

/-- Modelled from the spec sections 3 and 4.5: a relayed create first fails
under the kill switch, then verifies that the signature recovers to the
claimed maker.  When the maker-provided leg is fungible the embedded nonce
must be the successor of the stored nonce and the stored nonce is incremented
on success; a non-fungible maker leg skips the nonce mechanism entirely
(ownership transfer is inherently non-replayable), regardless of the taker
leg or any fuel in the message.  Fuel debiting is delegated to the external
currency registry and does not touch the ledger state. -/
def boostedMakeOrder (st : DubiexState) (msg : BoostedMakeOrder) (recoveredSigner : Addr) :
    Except DubiexError (DubiexState × Nat) :=
  if st.killSwitchOn then .error .killSwitchActive
  else if recoveredSigner ≠ msg.maker then .error .invalidSignature
  else if msg.input.pair.makerCurrencyType.isFungible then
    if msg.nonce = st.nonces msg.maker + 1 then
      match makeOrder st msg.maker msg.input with
      | .error e => .error e
      | .ok (st', newId) =>
        .ok ({ st' with nonces := bumpNonce st'.nonces msg.maker }, newId)
    else .error .replayRejected
  else makeOrder st msg.maker msg.input

/-- Modelled from the spec sections 3 and 4.5: a relayed fill mirrors
`boostedMakeOrder`, with the signer being the taker and the signer-provided
leg being the order's taker leg: the nonce is checked and incremented only
when that leg is fungible. -/
def boostedTakeOrder (st : DubiexState) (msg : BoostedTakeOrder) (recoveredSigner : Addr) :
    Except DubiexError FillResult :=
  if st.killSwitchOn then .error .killSwitchActive
  else if recoveredSigner ≠ msg.taker then .error .invalidSignature
  else
    match st.orders msg.input.maker msg.input.id with
    | none => .error .notFound
    | some ord =>
      if ord.pair.takerCurrencyType.isFungible then
        if msg.nonce = st.nonces msg.taker + 1 then
          match takeOrder st msg.taker msg.input with
          | .error e => .error e
          | .ok r =>
            .ok { r with state := { r.state with nonces := bumpNonce r.state.nonces msg.taker } }
        else .error .replayRejected
      else takeOrder st msg.taker msg.input

/-- Modelled from the spec sections 4.5 and 4.6: a relayed cancel looks the
order up and rejects a signature that does not recover to the order's actual
maker (the test suite asserts the signature error `AB-5`), kill switch on or
off; with a valid maker signature it follows the maker's own cancel path. -/
def boostedCancelOrder (st : DubiexState) (msg : BoostedCancelOrder) (recoveredSigner : Addr) :
    Except DubiexError (DubiexState × Nat) :=
  match st.orders msg.input.maker msg.input.id with
  | none => .error .notFound
  | some _ =>
    if recoveredSigner ≠ msg.input.maker then .error .invalidSignature
    else cancelOrder st msg.input.maker msg.input

/-- Atomic fold of relayed creates (each message paired with the address its
signature recovers to). -/
def boostedMakeOrderBatchGo : DubiexState → List (BoostedMakeOrder × Addr) →
    Except DubiexError DubiexState
  | st, [] => .ok st
  | st, (msg, rcv) :: rest =>
    match boostedMakeOrder st msg rcv with
    | .error e => .error e
    | .ok (st', _) => boostedMakeOrderBatchGo st' rest

/-- Modelled from the spec sections 4.4 and 4.6: the relayed create batch is
blocked as a whole by the kill switch, rejects empty input and is atomic. -/
def boostedMakeOrderBatch (st : DubiexState) (items : List (BoostedMakeOrder × Addr)) :
    Except DubiexError DubiexState :=
  if st.killSwitchOn then .error .killSwitchActive
  else if items.isEmpty then .error .invalidInput
  else boostedMakeOrderBatchGo st items

/-- Fold of relayed fills: signature and replay failures abort the batch,
per-item ledger failures are skipped. -/
def boostedTakeOrderBatchGo : DubiexState → List (BoostedTakeOrder × Addr) →
    Except DubiexError DubiexState
  | st, [] => .ok st
  | st, (msg, rcv) :: rest =>
    match boostedTakeOrder st msg rcv with
    | .ok r => boostedTakeOrderBatchGo r.state rest
    | .error .invalidSignature => .error .invalidSignature
    | .error .replayRejected => .error .replayRejected
    | .error _ => boostedTakeOrderBatchGo st rest

/-- Modelled from the spec sections 4.4 and 4.6: the relayed fill batch is
blocked as a whole by the kill switch and rejects empty input. -/
def boostedTakeOrderBatch (st : DubiexState) (items : List (BoostedTakeOrder × Addr)) :
    Except DubiexError DubiexState :=
  if st.killSwitchOn then .error .killSwitchActive
  else if items.isEmpty then .error .invalidInput
  else boostedTakeOrderBatchGo st items

/-- Fold of relayed cancels: signature failures abort the batch (the test
suite asserts `AB-5` for the batch call), missing orders are skipped. -/
def boostedCancelOrderBatchGo : DubiexState → List (BoostedCancelOrder × Addr) →
    Except DubiexError DubiexState
  | st, [] => .ok st
  | st, (msg, rcv) :: rest =>
    match boostedCancelOrder st msg rcv with
    | .ok (st', _) => boostedCancelOrderBatchGo st' rest
    | .error .invalidSignature => .error .invalidSignature
    | .error .unauthorized => .error .unauthorized
    | .error _ => boostedCancelOrderBatchGo st rest

/-- Modelled from the spec section 4.4: the relayed cancel batch rejects empty
input and folds relayed cancels (no kill-switch gate). -/
def boostedCancelOrderBatch (st : DubiexState) (items : List (BoostedCancelOrder × Addr)) :
    Except DubiexError DubiexState :=
  if items.isEmpty then .error .invalidInput
  else boostedCancelOrderBatchGo st items

/-! ## Whole-system step function -/

/-- One public entry point invocation (or an external supply movement
observed through the oracle). -/
inductive DubiexOp where
  | makeOp (maker : Addr) (inp : MakeOrderInput)
  | takeOp (taker : Addr) (inp : TakeOrderInput)
  | cancelOp (caller : Addr) (inp : CancelOrderInput)
  | makeBatchOp (maker : Addr) (inps : List MakeOrderInput)
  | takeBatchOp (taker : Addr) (inps : List TakeOrderInput)
  | cancelBatchOp (caller : Addr) (inps : List CancelOrderInput)
  | boostedMakeOp (msg : BoostedMakeOrder) (recoveredSigner : Addr)
  | boostedTakeOp (msg : BoostedTakeOrder) (recoveredSigner : Addr)
  | boostedCancelOp (msg : BoostedCancelOrder) (recoveredSigner : Addr)
  | boostedMakeBatchOp (items : List (BoostedMakeOrder × Addr))
  | boostedTakeBatchOp (items : List (BoostedTakeOrder × Addr))
  | boostedCancelBatchOp (items : List (BoostedCancelOrder × Addr))
  | activateOp
  | setSupplyOp (prps dubi : Nat)

/-- Modelled from the spec: every entry point either fully commits or fully
fails; a failed call leaves the state unchanged.  `setSupplyOp` models the
external token supplies moving (minting/burning outside the exchange). -/
def applyOp (st : DubiexState) : DubiexOp → DubiexState
  | .makeOp maker inp =>
    match makeOrder st maker inp with | .ok (st', _) => st' | .error _ => st
  | .takeOp taker inp =>
    match takeOrder st taker inp with | .ok r => r.state | .error _ => st
  | .cancelOp caller inp =>
    match cancelOrder st caller inp with | .ok (st', _) => st' | .error _ => st
  | .makeBatchOp maker inps =>
    match makeOrders st maker inps with | .ok st' => st' | .error _ => st
  | .takeBatchOp taker inps =>
    match takeOrders st taker inps with | .ok st' => st' | .error _ => st
  | .cancelBatchOp caller inps =>
    match cancelOrders st caller inps with | .ok st' => st' | .error _ => st
  | .boostedMakeOp msg rcv =>
    match boostedMakeOrder st msg rcv with | .ok (st', _) => st' | .error _ => st
  | .boostedTakeOp msg rcv =>
    match boostedTakeOrder st msg rcv with | .ok r => r.state | .error _ => st
  | .boostedCancelOp msg rcv =>
    match boostedCancelOrder st msg rcv with | .ok (st', _) => st' | .error _ => st
  | .boostedMakeBatchOp items =>
    match boostedMakeOrderBatch st items with | .ok st' => st' | .error _ => st
  | .boostedTakeBatchOp items =>
    match boostedTakeOrderBatch st items with | .ok st' => st' | .error _ => st
  | .boostedCancelBatchOp items =>
    match boostedCancelOrderBatch st items with | .ok st' => st' | .error _ => st
  | .activateOp =>
    match activateKillSwitch st with | .ok st' => st' | .error _ => st
  | .setSupplyOp prps dubi =>
    { st with prpsTotalSupply := prps, dubiTotalSupply := dubi }

/-- A trace of entry-point invocations applied in order. -/
def applyOps (st : DubiexState) (ops : List DubiexOp) : DubiexState :=
  ops.foldl applyOp st

/-! ## Test oracle (embedded from `tests/dubiex.test.ts`) -/

/-- Embedded from `tests/dubiex.test.ts` (`calculateValues`): the expected
fill amounts — with an ERC721 leg the whole `orderMakerValue` against the
requested `takerValue`; otherwise the requested amount is clamped to the
order's `takerValue` and the maker amount is
`orderMakerValue * 10^18 * takerValue / orderTakerValue / 10^18`
(BN.js floor division at each step). -/
def calculateValues (makerCurrencyType takerCurrencyType : CurrencyType)
    (orderMakerValue orderTakerValue takerValue : Nat) : Nat × Nat :=
  if makerCurrencyType = .erc721 ∨ takerCurrencyType = .erc721 then
    (orderMakerValue, takerValue)
  else
    let takerValue' := if orderTakerValue < takerValue then orderTakerValue else takerValue
    (orderMakerValue * WAD * takerValue' / orderTakerValue / WAD, takerValue')

/-! ## Concrete states for witnesses and counterexamples -/

/-- A fungible/fungible pair (DUBI against PRPS, both boostable ERC20). -/
def examplePair : OrderPair :=
  { makerContractAddress := 10, takerContractAddress := 20
    makerCurrencyType := .boostableErc20, takerCurrencyType := .boostableErc20 }

/-- A pair whose maker leg is a non-fungible collectible. -/
def exampleNftMakerPair : OrderPair :=
  { makerContractAddress := 30, takerContractAddress := 20
    makerCurrencyType := .erc721, takerCurrencyType := .boostableErc20 }

/-- A creation request over `examplePair` with the given values and ancestor. -/
def exampleCreate (mv tv anc : Nat) : MakeOrderInput :=
  { makerValue := mv, takerValue := tv, pair := examplePair
    orderId := 0, ancestorOrderId := anc, updatedRatioWei := 0 }

/-- State after maker 1 created one 10/10 fungible order (id 1). -/
def exampleSt1 : DubiexState := applyOp emptyState (.makeOp 1 (exampleCreate 10 10 0))

/-- State after maker 1 additionally chained a hidden successor (id 2) onto
order 1. -/
def exampleSt2 : DubiexState := applyOp exampleSt1 (.makeOp 1 (exampleCreate 7 7 1))

/-- State with order 1 of maker 1 and order 1 of maker 2 (no chaining). -/
def exampleTwoMakers : DubiexState :=
  applyOp exampleSt1 (.makeOp 2 (exampleCreate 5 5 0))

/-- State `exampleSt2` after the hidden successor (order 2) was cancelled by
its maker, leaving order 1's successor reference dangling. -/
def exampleSt2Cancelled : DubiexState := applyOp exampleSt2 (.cancelOp 1 ⟨2, 1⟩)

/-- State with the monitored PRPS supply at the kill-switch threshold. -/
def exampleSupplyHigh : DubiexState :=
  applyOp exampleSt1 (.setSupplyOp killSwitchThreshold 0)

/-- State with the kill switch tripped (and order 1 of maker 1 still open). -/
def exampleKilled : DubiexState := applyOp exampleSupplyHigh .activateOp

end Dubiex

namespace Dubiex

/-! ## Arithmetic lemmas for the event codec -/

/-- The packed word is the plain arithmetic sum of the three reduced fields
placed at bit offsets 0, 96 and 192. -/
lemma packDataFromOrderEvent_eq_arith (m t a : Nat) :
    packDataFromOrderEvent m t a =
      m % 2 ^ 96 + (t % 2 ^ 96) * 2 ^ 96 + (a % 2 ^ 32) * 2 ^ 192 := by
  unfold packDataFromOrderEvent bitmask96 bitmask32
  rw [Nat.zero_or, Nat.and_pow_two_sub_one_eq_mod, Nat.and_pow_two_sub_one_eq_mod,
    Nat.and_pow_two_sub_one_eq_mod, Nat.shiftLeft_eq, Nat.shiftLeft_eq]
  have hm : m % 2 ^ 96 < 2 ^ 96 := Nat.mod_lt _ (by positivity)
  have ht : t % 2 ^ 96 < 2 ^ 96 := Nat.mod_lt _ (by positivity)
  have h1 : m % 2 ^ 96 ||| t % 2 ^ 96 * 2 ^ 96 = m % 2 ^ 96 + t % 2 ^ 96 * 2 ^ 96 := by
    rw [Nat.lor_comm, Nat.mul_comm (t % 2 ^ 96) (2 ^ 96),
      ← Nat.mul_add_lt_is_or hm (t % 2 ^ 96)]
    omega
  rw [h1]
  have hlow : m % 2 ^ 96 + t % 2 ^ 96 * 2 ^ 96 < 2 ^ 192 := by
    have h2 : (2 : Nat) ^ 192 = 2 ^ 96 * 2 ^ 96 := by norm_num
    nlinarith
  have h3 : m % 2 ^ 96 + t % 2 ^ 96 * 2 ^ 96 ||| a % 2 ^ 32 * 2 ^ 192 =
      m % 2 ^ 96 + t % 2 ^ 96 * 2 ^ 96 + a % 2 ^ 32 * 2 ^ 192 := by
    rw [Nat.lor_comm, Nat.mul_comm (a % 2 ^ 32) (2 ^ 192),
      ← Nat.mul_add_lt_is_or hlow (a % 2 ^ 32)]
    omega
  rw [h3]

/-- Unpacking the packed word recovers the three fields reduced modulo their
bit widths, for arbitrary non-negative inputs. -/
lemma unpack_pack_mod (m t a : Nat) :
    unpackPackedDataFromOrderEvent (packDataFromOrderEvent m t a) =
      ⟨m % 2 ^ 96, t % 2 ^ 96, a % 2 ^ 32⟩ := by
  have hm : m % 2 ^ 96 < 2 ^ 96 := Nat.mod_lt _ (by positivity)
  have ht : t % 2 ^ 96 < 2 ^ 96 := Nat.mod_lt _ (by positivity)
  have ha : a % 2 ^ 32 < 2 ^ 32 := Nat.mod_lt _ (by positivity)
  unfold unpackPackedDataFromOrderEvent bitmask96 bitmask32
  rw [packDataFromOrderEvent_eq_arith]
  rw [Nat.and_pow_two_sub_one_eq_mod, Nat.shiftRight_eq_div_pow,
    Nat.and_pow_two_sub_one_eq_mod, Nat.shiftRight_eq_div_pow,
    Nat.and_pow_two_sub_one_eq_mod]
  have hsplit : m % 2 ^ 96 + t % 2 ^ 96 * 2 ^ 96 + a % 2 ^ 32 * 2 ^ 192 =
      m % 2 ^ 96 + (t % 2 ^ 96 + a % 2 ^ 32 * 2 ^ 96) * 2 ^ 96 := by ring
  have hfield1 : (m % 2 ^ 96 + t % 2 ^ 96 * 2 ^ 96 + a % 2 ^ 32 * 2 ^ 192) % 2 ^ 96 =
      m % 2 ^ 96 := by
    rw [hsplit, Nat.add_mul_mod_self_right, Nat.mod_eq_of_lt hm]
  have hdiv96 : (m % 2 ^ 96 + t % 2 ^ 96 * 2 ^ 96 + a % 2 ^ 32 * 2 ^ 192) / 2 ^ 96 =
      t % 2 ^ 96 + a % 2 ^ 32 * 2 ^ 96 := by
    rw [hsplit, Nat.add_mul_div_right _ _ (by positivity : (0:Nat) < 2 ^ 96),
      Nat.div_eq_of_lt hm, Nat.zero_add]
  have hfield2 : (m % 2 ^ 96 + t % 2 ^ 96 * 2 ^ 96 + a % 2 ^ 32 * 2 ^ 192) / 2 ^ 96 % 2 ^ 96 =
      t % 2 ^ 96 := by
    rw [hdiv96, Nat.add_mul_mod_self_right, Nat.mod_eq_of_lt ht]
  have hlow : m % 2 ^ 96 + t % 2 ^ 96 * 2 ^ 96 < 2 ^ 192 := by
    have h2 : (2 : Nat) ^ 192 = 2 ^ 96 * 2 ^ 96 := by norm_num
    nlinarith
  have hfield3 : (m % 2 ^ 96 + t % 2 ^ 96 * 2 ^ 96 + a % 2 ^ 32 * 2 ^ 192) / 2 ^ 192 % 2 ^ 32 =
      a % 2 ^ 32 := by
    rw [Nat.add_mul_div_right _ _ (by positivity : (0:Nat) < 2 ^ 192),
      Nat.div_eq_of_lt hlow, Nat.zero_add, Nat.mod_eq_of_lt ha]
  rw [hfield1, hfield2, hfield3]

/-! ## Helper lemmas for the ledger model -/

/-- Reading the slot just written. -/
lemma setOrder_self (f : Addr → Nat → Option Order) (maker : Addr) (id : Nat)
    (o : Option Order) : setOrder f maker id o maker id = o := by
  simp [setOrder]

/-- Reading any other slot is unchanged. -/
lemma setOrder_ne (f : Addr → Nat → Option Order) (maker : Addr) (id : Nat)
    (o : Option Order) (m : Addr) (i : Nat) (h : ¬(m = maker ∧ i = id)) :
    setOrder f maker id o m i = f m i := by
  simp only [setOrder, if_neg h]

/-- WAD is positive. -/
lemma WAD_pos : 0 < WAD := by norm_num [WAD]

/-- A fungible currency kind is not the non-fungible kind. -/
lemma isFungible_ne_erc721 (c : CurrencyType) (h : c.isFungible = true) :
    c ≠ .erc721 := by
  cases c <;> simp_all [CurrencyType.isFungible]

/-- The wide-intermediate product of the test oracle cancels:
`m * 10^18 * f / t / 10^18 = m * f / t` (floor division). -/
lemma wide_mul_div_cancel (m f t : Nat) :
    m * WAD * f / t / WAD = m * f / t := by
  rw [Nat.div_div_eq_div_mul]
  have h1 : m * WAD * f = m * f * WAD := by ring
  rw [h1, Nat.mul_div_mul_right _ _ WAD_pos]

/-- On two fungible legs the test oracle `calculateValues` clamps the request
to the order's `takerValue` and pays out proportionally. -/
lemma calculateValues_fungible (mc tc : CurrencyType)
    (hmc : mc.isFungible = true) (htc : tc.isFungible = true) (m t f : Nat) :
    calculateValues mc tc m t f = (m * min f t / t, min f t) := by
  have hm : ¬(mc = .erc721 ∨ tc = .erc721) := by
    rcases isFungible_ne_erc721 mc hmc with h1
    rcases isFungible_ne_erc721 tc htc with h2
    tauto
  have hclamp : (if t < f then t else f) = min f t := by
    split <;> omega
  simp only [calculateValues, if_neg hm, hclamp, wide_mul_div_cancel]

/-- The settled maker amount reported by a fill. -/
lemma finalizeFill_filledMaker (st : DubiexState) (maker : Addr) (ord : Order)
    (fm ft : Nat) : (finalizeFill st maker ord fm ft).filledMakerValue = fm := rfl

/-- The settled taker amount reported by a fill. -/
lemma finalizeFill_filledTaker (st : DubiexState) (maker : Addr) (ord : Order)
    (fm ft : Nat) : (finalizeFill st maker ord fm ft).filledTakerValue = ft := rfl

/-- A fill never touches the nonce table. -/
lemma finalizeFill_nonces (st : DubiexState) (maker : Addr) (ord : Order)
    (fm ft : Nat) : (finalizeFill st maker ord fm ft).state.nonces = st.nonces := rfl

/-- A fill never touches the kill-switch flag. -/
lemma finalizeFill_killSwitchOn (st : DubiexState) (maker : Addr) (ord : Order)
    (fm ft : Nat) : (finalizeFill st maker ord fm ft).state.killSwitchOn = st.killSwitchOn := rfl

/-- An exhausting fill deletes the order's slot (the successor reveal, if
any, writes a different slot). -/
lemma finalizeFill_full_none (st : DubiexState) (maker : Addr) (ord : Order)
    (fm ft : Nat) (h : ord.takerValue - ft = 0) (hs : ord.successorOrderId ≠ ord.id) :
    (finalizeFill st maker ord fm ft).state.orders maker ord.id = none := by
  show finalizeFillOrders st maker ord fm ft maker ord.id = none
  unfold finalizeFillOrders
  rw [if_pos h]
  by_cases hsid : ord.successorOrderId = 0
  · simp only [hsid, ne_eq, not_true_eq_false, if_false]
    exact setOrder_self _ _ _ _
  · simp only [ne_eq, hsid, not_false_eq_true, if_true]
    cases hsucc : st.orders maker ord.successorOrderId with
    | none => exact setOrder_self _ _ _ _
    | some succ =>
      dsimp only
      rw [setOrder_ne _ _ _ _ _ _ (by omega)]
      exact setOrder_self _ _ _ _

/-- An exhausting fill clears the hidden flag of a still-existing successor. -/
lemma finalizeFill_full_reveal (st : DubiexState) (maker : Addr) (ord : Order)
    (fm ft : Nat) (succ : Order) (h : ord.takerValue - ft = 0)
    (hsid : ord.successorOrderId ≠ 0)
    (hsucc : st.orders maker ord.successorOrderId = some succ) :
    (finalizeFill st maker ord fm ft).state.orders maker ord.successorOrderId =
      some { succ with isHidden := false } := by
  show finalizeFillOrders st maker ord fm ft maker ord.successorOrderId = _
  unfold finalizeFillOrders
  rw [if_pos h]
  simp only [ne_eq, hsid, not_false_eq_true, if_true, hsucc]
  exact setOrder_self _ _ _ _

/-- An exhausting fill whose successor reference dangles (order cancelled)
touches no slot other than the filled order's own. -/
lemma finalizeFill_full_inert_frame (st : DubiexState) (maker : Addr) (ord : Order)
    (fm ft : Nat) (h : ord.takerValue - ft = 0)
    (hmiss : st.orders maker ord.successorOrderId = none) :
    ∀ m j, ¬(m = maker ∧ j = ord.id) →
      (finalizeFill st maker ord fm ft).state.orders m j = st.orders m j := by
  intro m j hmj
  show finalizeFillOrders st maker ord fm ft m j = st.orders m j
  unfold finalizeFillOrders
  rw [if_pos h]
  by_cases hsid : ord.successorOrderId = 0
  · simp only [hsid, ne_eq, not_true_eq_false, if_false]
    exact setOrder_ne _ _ _ _ _ _ hmj
  · simp only [ne_eq, hsid, not_false_eq_true, if_true, hmiss]
    exact setOrder_ne _ _ _ _ _ _ hmj

/-- A partial fill stores the order with both values reduced by the filled
amounts. -/
lemma finalizeFill_partial_slot (st : DubiexState) (maker : Addr) (ord : Order)
    (fm ft : Nat) (h : ord.takerValue - ft ≠ 0) :
    (finalizeFill st maker ord fm ft).state.orders maker ord.id =
      some { ord with makerValue := ord.makerValue - fm,
                      takerValue := ord.takerValue - ft } := by
  show finalizeFillOrders st maker ord fm ft maker ord.id = _
  unfold finalizeFillOrders
  rw [if_neg h]
  exact setOrder_self _ _ _ _

end Dubiex

namespace Dubiex

/-- C1: for every visible order with two fungible legs and every requested
fill `f > 0` (the order's current ratio within the caller's ceiling), the
filled taker amount is `min(f, takerValue)` and the filled maker amount is
`makerValue * filledTaker / takerValue` with no intermediate truncation —
agreeing exactly with the wide-intermediate oracle `calculateValues` of the
test suite; afterwards the stored order has decreased by exactly the filled
amounts, and it is destroyed (absent, all fields zeroed in the contract's
encoding) if and only if the remaining `takerValue` is exactly zero. -/
theorem takeOrder_fungible_fill (st : DubiexState) (taker : Addr)
    (inp : TakeOrderInput) (ord : Order)
    (hks : st.killSwitchOn = false)
    (hord : st.orders inp.maker inp.id = some ord)
    (hoid : ord.id = inp.id)
    (hvis : ord.isHidden = false)
    (hmf : ord.pair.makerCurrencyType.isFungible = true)
    (htf : ord.pair.takerCurrencyType.isFungible = true)
    (hpos : 0 < inp.takerValue)
    (hsucc : ord.successorOrderId ≠ ord.id)
    (hratio : ord.takerValue * WAD / ord.makerValue ≤ inp.maxTakerMakerRatio) :
    ∃ r : FillResult,
      takeOrder st taker inp = .ok r ∧
      r.filledTakerValue = min inp.takerValue ord.takerValue ∧
      r.filledMakerValue = ord.makerValue * min inp.takerValue ord.takerValue / ord.takerValue ∧
      calculateValues ord.pair.makerCurrencyType ord.pair.takerCurrencyType
          ord.makerValue ord.takerValue inp.takerValue
        = (r.filledMakerValue, r.filledTakerValue) ∧
      (ord.takerValue - r.filledTakerValue = 0 → r.state.orders inp.maker inp.id = none) ∧
      (ord.takerValue - r.filledTakerValue ≠ 0 →
        r.state.orders inp.maker inp.id =
          some { ord with makerValue := ord.makerValue - r.filledMakerValue,
                          takerValue := ord.takerValue - r.filledTakerValue }) := by
  have hne : inp.takerValue ≠ 0 := Nat.pos_iff_ne_zero.mp hpos
  have hnotlt : ¬(inp.maxTakerMakerRatio < ord.takerValue * WAD / ord.makerValue) :=
    Nat.not_lt.mpr hratio
  refine ⟨finalizeFill st inp.maker ord
      (ord.makerValue * min inp.takerValue ord.takerValue / ord.takerValue)
      (min inp.takerValue ord.takerValue), ?_, rfl, rfl, ?_, ?_, ?_⟩
  · simp [takeOrder, hks, hord, hvis, hne, hnotlt, hmf, htf]
  · exact calculateValues_fungible _ _ hmf htf _ _ _
  · intro h0
    rw [← hoid]
    exact finalizeFill_full_none st inp.maker ord _ _ h0 hsucc
  · intro hne0
    rw [← hoid]
    exact finalizeFill_partial_slot st inp.maker ord _ _ hne0

/-- Witness for C1: in `exampleSt1` (maker 1 owns the 10/10 order 1), a fill
request of 4 settles 4 against 4 and leaves a 6/6 order. -/
theorem takeOrder_fungible_fill_witness :
    ∃ r : FillResult,
      takeOrder exampleSt1 2 ⟨1, 1, 4, WAD⟩ = .ok r ∧
      r.filledTakerValue = min 4 10 ∧
      r.filledMakerValue = 10 * min 4 10 / 10 ∧
      calculateValues CurrencyType.boostableErc20 CurrencyType.boostableErc20 10 10 4
        = (r.filledMakerValue, r.filledTakerValue) ∧
      (10 - r.filledTakerValue = 0 → r.state.orders 1 1 = none) ∧
      (10 - r.filledTakerValue ≠ 0 →
        r.state.orders 1 1 =
          some { id := 1, makerValue := 10 - r.filledMakerValue,
                 takerValue := 10 - r.filledTakerValue, pair := examplePair,
                 ancestorOrderId := 0, successorOrderId := 0, isHidden := false }) :=
  takeOrder_fungible_fill exampleSt1 2 ⟨1, 1, 4, WAD⟩
    ⟨1, 10, 10, examplePair, 0, 0, false⟩
    rfl rfl rfl rfl rfl rfl (by norm_num) (by decide) (by norm_num [WAD])

/-- C2: updating an existing, visible order with two fungible legs via
`orderId ≠ 0` and ratio `r` sets `takerValue` to `makerValue * r / 10^18`,
leaves `makerValue` and the ancestor/successor references unchanged, ignores
the caller-supplied `makerValue`/`takerValue`/`pair` of the request, and
fails with an overflow error when the recomputed value does not fit in 96
bits. -/
theorem makeOrder_ratio_upsert (st : DubiexState) (maker : Addr)
    (inp : MakeOrderInput) (ord : Order)
    (hks : st.killSwitchOn = false)
    (hid : inp.orderId ≠ 0)
    (hord : st.orders maker inp.orderId = some ord)
    (hvis : ord.isHidden = false)
    (hmf : ord.pair.makerCurrencyType.isFungible = true)
    (htf : ord.pair.takerCurrencyType.isFungible = true)
    (hr : inp.updatedRatioWei ≠ 0) :
    (ord.makerValue * inp.updatedRatioWei / WAD < uint96Bound →
      makeOrder st maker inp =
        .ok ({ st with orders := setOrder st.orders maker inp.orderId
                                   (some { ord with
                                            takerValue :=
                                              ord.makerValue * inp.updatedRatioWei / WAD }) },
             inp.orderId)) ∧
    (uint96Bound ≤ ord.makerValue * inp.updatedRatioWei / WAD →
      makeOrder st maker inp = .error .overflow) ∧
    (∀ inp2 : MakeOrderInput, inp2.orderId = inp.orderId →
      inp2.updatedRatioWei = inp.updatedRatioWei →
      makeOrder st maker inp2 = makeOrder st maker inp) := by
  refine ⟨?_, ?_, ?_⟩
  · intro hlt
    have hU : updateOrder st maker inp.orderId inp.updatedRatioWei =
        .ok { st with orders := setOrder st.orders maker inp.orderId
                                  (some { ord with
                                           takerValue :=
                                             ord.makerValue * inp.updatedRatioWei / WAD }) } := by
      simp [updateOrder, hks, hord, hvis, hmf, htf, hr, Nat.not_le.mpr hlt]
    simp [makeOrder, hid, hU]
  · intro hge
    have hU : updateOrder st maker inp.orderId inp.updatedRatioWei = .error .overflow := by
      simp [updateOrder, hks, hord, hvis, hmf, htf, hr, hge]
    simp [makeOrder, hid, hU]
  · intro inp2 h1 h2
    unfold makeOrder
    rw [h1, h2, if_neg hid, if_neg hid]

/-- Witness for C2: in `exampleSt1`, an update request for order 1 carrying
junk values and a non-fungible pair but ratio 2.0 doubles `takerValue` to
20; a ratio of `2^96` overflows. -/
theorem makeOrder_ratio_upsert_witness :
    makeOrder exampleSt1 1 ⟨999, 999, exampleNftMakerPair, 1, 0, 2 * WAD⟩ =
      .ok ({ exampleSt1 with orders := setOrder exampleSt1.orders 1 1
                                         (some { id := 1, makerValue := 10,
                                                 takerValue := 10 * (2 * WAD) / WAD,
                                                 pair := examplePair, ancestorOrderId := 0,
                                                 successorOrderId := 0,
                                                 isHidden := false }) }, 1) ∧
    makeOrder exampleSt1 1 ⟨999, 999, exampleNftMakerPair, 1, 0, WAD * 2 ^ 96⟩ =
      .error .overflow :=
  ⟨(makeOrder_ratio_upsert exampleSt1 1 ⟨999, 999, exampleNftMakerPair, 1, 0, 2 * WAD⟩
      ⟨1, 10, 10, examplePair, 0, 0, false⟩
      rfl (by decide) rfl rfl rfl rfl
      (by show 2 * WAD ≠ 0
          exact Nat.mul_ne_zero (by norm_num) (Nat.pos_iff_ne_zero.mp WAD_pos))).1
    (by show 10 * (2 * WAD) / WAD < uint96Bound
        rw [← Nat.mul_assoc, Nat.mul_div_cancel _ WAD_pos]
        norm_num [uint96Bound]),
   (makeOrder_ratio_upsert exampleSt1 1 ⟨999, 999, exampleNftMakerPair, 1, 0, WAD * 2 ^ 96⟩
      ⟨1, 10, 10, examplePair, 0, 0, false⟩
      rfl (by decide) rfl rfl rfl rfl
      (by show WAD * 2 ^ 96 ≠ 0
          exact Nat.mul_ne_zero (Nat.pos_iff_ne_zero.mp WAD_pos) (by positivity))).2.1
    (by show uint96Bound ≤ 10 * (WAD * 2 ^ 96) / WAD
        rw [Nat.mul_comm WAD (2 ^ 96), ← Nat.mul_assoc,
          Nat.mul_div_cancel _ WAD_pos]
        norm_num [uint96Bound])⟩

end Dubiex

namespace Dubiex

/-! ## State-preservation lemmas for the entry points -/

/-- A successful creation touches neither the nonce table nor the
kill-switch flag. -/
lemma makeOrderCreate_ok_state {st : DubiexState} {maker : Addr}
    {inp : MakeOrderInput} {st' : DubiexState} {newId : Nat}
    (h : makeOrderCreate st maker inp = .ok (st', newId)) :
    st'.nonces = st.nonces ∧ st'.killSwitchOn = st.killSwitchOn := by
  unfold makeOrderCreate at h
  repeat' split at h
  all_goals first
    | (simp only [Except.ok.injEq, Prod.mk.injEq] at h
       obtain ⟨h1, -⟩ := h
       subst h1
       exact ⟨rfl, rfl⟩)
    | simp at h

/-- A successful ratio upsert touches neither the nonce table nor the
kill-switch flag. -/
lemma updateOrder_ok_state {st : DubiexState} {maker : Addr} {oid ratio : Nat}
    {st' : DubiexState} (h : updateOrder st maker oid ratio = .ok st') :
    st'.nonces = st.nonces ∧ st'.killSwitchOn = st.killSwitchOn := by
  unfold updateOrder at h
  repeat' split at h
  all_goals first
    | (simp only [Except.ok.injEq] at h
       subst h
       exact ⟨rfl, rfl⟩)
    | simp at h

/-- A successful make order (create or upsert) touches neither the nonce
table nor the kill-switch flag. -/
lemma makeOrder_ok_state {st : DubiexState} {maker : Addr} {inp : MakeOrderInput}
    {st' : DubiexState} {newId : Nat}
    (h : makeOrder st maker inp = .ok (st', newId)) :
    st'.nonces = st.nonces ∧ st'.killSwitchOn = st.killSwitchOn := by
  unfold makeOrder at h
  split at h
  · exact makeOrderCreate_ok_state h
  · split at h
    · simp at h
    · rename_i st1 hU
      simp only [Except.ok.injEq, Prod.mk.injEq] at h
      obtain ⟨h1, -⟩ := h
      subst h1
      exact updateOrder_ok_state hU

/-- A successful fill touches neither the nonce table nor the kill-switch
flag. -/
lemma takeOrder_ok_state {st : DubiexState} {taker : Addr} {inp : TakeOrderInput}
    {r : FillResult} (h : takeOrder st taker inp = .ok r) :
    r.state.nonces = st.nonces ∧ r.state.killSwitchOn = st.killSwitchOn := by
  unfold takeOrder at h
  repeat' split at h
  all_goals first
    | (simp only [Except.ok.injEq] at h
       subst h
       exact ⟨rfl, rfl⟩)
    | simp at h

/-- A successful cancel touches neither the nonce table nor the kill-switch
flag. -/
lemma cancelOrder_ok_state {st : DubiexState} {caller : Addr}
    {inp : CancelOrderInput} {st' : DubiexState} {v : Nat}
    (h : cancelOrder st caller inp = .ok (st', v)) :
    st'.nonces = st.nonces ∧ st'.killSwitchOn = st.killSwitchOn := by
  unfold cancelOrder at h
  repeat' split at h
  all_goals first
    | (simp only [Except.ok.injEq, Prod.mk.injEq] at h
       obtain ⟨h1, -⟩ := h
       subst h1
       exact ⟨rfl, rfl⟩)
    | simp at h

end Dubiex

namespace Dubiex

/-! ## Kill-switch behaviour of each entry point -/

/-- With the kill switch on, `makeOrder` (create or upsert) always fails. -/
lemma makeOrder_killed {st : DubiexState} (maker : Addr) (inp : MakeOrderInput)
    (h : st.killSwitchOn = true) :
    makeOrder st maker inp = .error .killSwitchActive := by
  unfold makeOrder makeOrderCreate updateOrder
  split <;> simp [h]

/-- With the kill switch on, `takeOrder` always fails. -/
lemma takeOrder_killed {st : DubiexState} (taker : Addr) (inp : TakeOrderInput)
    (h : st.killSwitchOn = true) :
    takeOrder st taker inp = .error .killSwitchActive := by
  unfold takeOrder
  simp [h]

/-- With the kill switch on, the atomic create batch always fails. -/
lemma makeOrders_killed {st : DubiexState} (maker : Addr) (inps : List MakeOrderInput)
    (h : st.killSwitchOn = true) :
    makeOrders st maker inps = .error .killSwitchActive := by
  unfold makeOrders
  simp [h]

/-- With the kill switch on, the isolated fill batch always fails. -/
lemma takeOrders_killed {st : DubiexState} (taker : Addr) (inps : List TakeOrderInput)
    (h : st.killSwitchOn = true) :
    takeOrders st taker inps = .error .killSwitchActive := by
  unfold takeOrders
  simp [h]

/-- With the kill switch on, a relayed create always fails. -/
lemma boostedMakeOrder_killed {st : DubiexState} (msg : BoostedMakeOrder) (rcv : Addr)
    (h : st.killSwitchOn = true) :
    boostedMakeOrder st msg rcv = .error .killSwitchActive := by
  unfold boostedMakeOrder
  simp [h]

/-- With the kill switch on, a relayed fill always fails. -/
lemma boostedTakeOrder_killed {st : DubiexState} (msg : BoostedTakeOrder) (rcv : Addr)
    (h : st.killSwitchOn = true) :
    boostedTakeOrder st msg rcv = .error .killSwitchActive := by
  unfold boostedTakeOrder
  simp [h]

/-- With the kill switch on, the relayed create batch always fails. -/
lemma boostedMakeOrderBatch_killed {st : DubiexState}
    (items : List (BoostedMakeOrder × Addr)) (h : st.killSwitchOn = true) :
    boostedMakeOrderBatch st items = .error .killSwitchActive := by
  unfold boostedMakeOrderBatch
  simp [h]

/-- With the kill switch on, the relayed fill batch always fails. -/
lemma boostedTakeOrderBatch_killed {st : DubiexState}
    (items : List (BoostedTakeOrder × Addr)) (h : st.killSwitchOn = true) :
    boostedTakeOrderBatch st items = .error .killSwitchActive := by
  unfold boostedTakeOrderBatch
  simp [h]

/-- With the kill switch on, a second activation fails with the
already-on error. -/
lemma activateKillSwitch_killed {st : DubiexState} (h : st.killSwitchOn = true) :
    activateKillSwitch st = .error .killSwitchAlreadyOn := by
  unfold activateKillSwitch
  simp [h]

/-- The isolated cancel fold touches neither the nonce table nor the
kill-switch flag. -/
lemma cancelOrdersGo_ok_state (caller : Addr) (inps : List CancelOrderInput) :
    ∀ st st' : DubiexState, cancelOrdersGo caller st inps = .ok st' →
      st'.nonces = st.nonces ∧ st'.killSwitchOn = st.killSwitchOn := by
  induction inps with
  | nil =>
    intro st st' h
    simp only [cancelOrdersGo, Except.ok.injEq] at h
    subst h
    exact ⟨rfl, rfl⟩
  | cons inp rest ih =>
    intro st st' h
    unfold cancelOrdersGo at h
    split at h
    · rename_i st1 v hC
      obtain ⟨h1, h2⟩ := cancelOrder_ok_state hC
      obtain ⟨h3, h4⟩ := ih _ _ h
      exact ⟨h3.trans h1, h4.trans h2⟩
    · simp at h
    · exact ih _ _ h

/-- The cancel batch touches neither the nonce table nor the kill-switch
flag. -/
lemma cancelOrders_ok_state {st : DubiexState} {caller : Addr}
    {inps : List CancelOrderInput} {st' : DubiexState}
    (h : cancelOrders st caller inps = .ok st') :
    st'.nonces = st.nonces ∧ st'.killSwitchOn = st.killSwitchOn := by
  unfold cancelOrders at h
  split at h
  · simp at h
  · exact cancelOrdersGo_ok_state caller inps st st' h

/-- A successful relayed cancel touches neither the nonce table nor the
kill-switch flag. -/
lemma boostedCancelOrder_ok_state {st : DubiexState} {msg : BoostedCancelOrder}
    {rcv : Addr} {st' : DubiexState} {v : Nat}
    (h : boostedCancelOrder st msg rcv = .ok (st', v)) :
    st'.nonces = st.nonces ∧ st'.killSwitchOn = st.killSwitchOn := by
  unfold boostedCancelOrder at h
  split at h
  · simp at h
  · split at h
    · simp at h
    · exact cancelOrder_ok_state h

/-- The relayed cancel fold touches neither the nonce table nor the
kill-switch flag. -/
lemma boostedCancelOrderBatchGo_ok_state (items : List (BoostedCancelOrder × Addr)) :
    ∀ st st' : DubiexState, boostedCancelOrderBatchGo st items = .ok st' →
      st'.nonces = st.nonces ∧ st'.killSwitchOn = st.killSwitchOn := by
  induction items with
  | nil =>
    intro st st' h
    simp only [boostedCancelOrderBatchGo, Except.ok.injEq] at h
    subst h
    exact ⟨rfl, rfl⟩
  | cons item rest ih =>
    intro st st' h
    unfold boostedCancelOrderBatchGo at h
    split at h
    · rename_i st1 v hC
      obtain ⟨h1, h2⟩ := boostedCancelOrder_ok_state hC
      obtain ⟨h3, h4⟩ := ih _ _ h
      exact ⟨h3.trans h1, h4.trans h2⟩
    · simp at h
    · simp at h
    · exact ih _ _ h

/-- The relayed cancel batch touches neither the nonce table nor the
kill-switch flag. -/
lemma boostedCancelOrderBatch_ok_state {st : DubiexState}
    {items : List (BoostedCancelOrder × Addr)} {st' : DubiexState}
    (h : boostedCancelOrderBatch st items = .ok st') :
    st'.nonces = st.nonces ∧ st'.killSwitchOn = st.killSwitchOn := by
  unfold boostedCancelOrderBatch at h
  split at h
  · simp at h
  · exact boostedCancelOrderBatchGo_ok_state items st st' h

/-- No entry point ever clears a tripped kill switch. -/
lemma applyOp_killSwitchOn (st : DubiexState) (op : DubiexOp)
    (h : st.killSwitchOn = true) : (applyOp st op).killSwitchOn = true := by
  cases op with
  | makeOp maker inp => simp [applyOp, makeOrder_killed maker inp h, h]
  | takeOp taker inp => simp [applyOp, takeOrder_killed taker inp h, h]
  | cancelOp caller inp =>
    cases hC : cancelOrder st caller inp with
    | ok p =>
      obtain ⟨st', v⟩ := p
      simp only [applyOp, hC]
      exact (cancelOrder_ok_state hC).2.trans h
    | error e => simp only [applyOp, hC]; exact h
  | makeBatchOp maker inps => simp [applyOp, makeOrders_killed maker inps h, h]
  | takeBatchOp taker inps => simp [applyOp, takeOrders_killed taker inps h, h]
  | cancelBatchOp caller inps =>
    cases hC : cancelOrders st caller inps with
    | ok st' =>
      simp only [applyOp, hC]
      exact (cancelOrders_ok_state hC).2.trans h
    | error e => simp only [applyOp, hC]; exact h
  | boostedMakeOp msg rcv => simp [applyOp, boostedMakeOrder_killed msg rcv h, h]
  | boostedTakeOp msg rcv => simp [applyOp, boostedTakeOrder_killed msg rcv h, h]
  | boostedCancelOp msg rcv =>
    cases hC : boostedCancelOrder st msg rcv with
    | ok p =>
      obtain ⟨st', v⟩ := p
      simp only [applyOp, hC]
      exact (boostedCancelOrder_ok_state hC).2.trans h
    | error e => simp only [applyOp, hC]; exact h
  | boostedMakeBatchOp items => simp [applyOp, boostedMakeOrderBatch_killed items h, h]
  | boostedTakeBatchOp items => simp [applyOp, boostedTakeOrderBatch_killed items h, h]
  | boostedCancelBatchOp items =>
    cases hC : boostedCancelOrderBatch st items with
    | ok st' =>
      simp only [applyOp, hC]
      exact (boostedCancelOrderBatch_ok_state hC).2.trans h
    | error e => simp only [applyOp, hC]; exact h
  | activateOp => simp [applyOp, activateKillSwitch_killed h, h]
  | setSupplyOp prps dubi => simpa [applyOp] using h

end Dubiex

namespace Dubiex

/-- C4: for every accepted relayed order operation the signer's stored nonce
is incremented by exactly 1 when the asset leg the signer provides is
fungible (the maker leg of a relayed create, the taker leg of a relayed
fill), and left unchanged when that leg is a non-fungible ERC721 asset —
regardless of the other leg's kind and of any fuel carried by the message. -/
theorem boosted_nonce_rule :
    (∀ (st : DubiexState) (msg : BoostedMakeOrder) (rcv : Addr)
        (st' : DubiexState) (newId : Nat),
      boostedMakeOrder st msg rcv = .ok (st', newId) →
      (msg.input.pair.makerCurrencyType.isFungible = true →
        st'.nonces msg.maker = st.nonces msg.maker + 1 ∧
        (∀ s, s ≠ msg.maker → st'.nonces s = st.nonces s)) ∧
      (msg.input.pair.makerCurrencyType = .erc721 → st'.nonces = st.nonces)) ∧
    (∀ (st : DubiexState) (msg : BoostedTakeOrder) (rcv : Addr)
        (r : FillResult) (ord : Order),
      boostedTakeOrder st msg rcv = .ok r →
      st.orders msg.input.maker msg.input.id = some ord →
      (ord.pair.takerCurrencyType.isFungible = true →
        r.state.nonces msg.taker = st.nonces msg.taker + 1 ∧
        (∀ s, s ≠ msg.taker → r.state.nonces s = st.nonces s)) ∧
      (ord.pair.takerCurrencyType = .erc721 → r.state.nonces = st.nonces)) := by
  constructor
  · intro st msg rcv st' newId h
    unfold boostedMakeOrder at h
    split at h
    · simp at h
    · split at h
      · simp at h
      · split at h
        · rename_i hf
          split at h
          · split at h
            · simp at h
            · rename_i st1 id1 hM
              simp only [Except.ok.injEq, Prod.mk.injEq] at h
              obtain ⟨h1, -⟩ := h
              subst h1
              have hn := (makeOrder_ok_state hM).1
              constructor
              · intro _
                constructor
                · show bumpNonce st1.nonces msg.maker msg.maker = st.nonces msg.maker + 1
                  simp [bumpNonce, hn]
                · intro s hs
                  show bumpNonce st1.nonces msg.maker s = st.nonces s
                  simp [bumpNonce, hs, hn]
              · intro h721
                rw [h721] at hf
                simp [CurrencyType.isFungible] at hf
          · simp at h
        · rename_i hf
          constructor
          · intro hfun
            exact absurd hfun hf
          · intro _
            exact (makeOrder_ok_state h).1
  · intro st msg rcv r ord h hord
    unfold boostedTakeOrder at h
    split at h
    · simp at h
    · split at h
      · simp at h
      · split at h
        · simp at h
        · rename_i ord1 heq
          rw [hord] at heq
          injection heq with heq1
          subst heq1
          split at h
          · rename_i hf
            split at h
            · split at h
              · simp at h
              · rename_i r1 hT
                simp only [Except.ok.injEq] at h
                subst h
                have hn := (takeOrder_ok_state hT).1
                constructor
                · intro _
                  constructor
                  · show bumpNonce r1.state.nonces msg.taker msg.taker =
                      st.nonces msg.taker + 1
                    simp [bumpNonce, hn]
                  · intro s hs
                    show bumpNonce r1.state.nonces msg.taker s = st.nonces s
                    simp [bumpNonce, hs, hn]
                · intro h721
                  rw [h721] at hf
                  simp [CurrencyType.isFungible] at hf
            · simp at h
          · rename_i hf
            constructor
            · intro hfun
              exact absurd hfun hf
            · intro _
              exact (takeOrder_ok_state h).1

/-- Witness for C4: on the empty state, a relayed fungible create for signer
5 bumps the nonce to 1; a relayed create with an ERC721 maker leg (fuel
present, fungible taker leg) leaves the nonce table unchanged; a relayed
fungible fill in `exampleSt1` bumps taker 7's nonce. -/
theorem boosted_nonce_rule_witness :
    (applyOp emptyState
        (.boostedMakeOp ⟨exampleCreate 10 10 0, 5, ⟨1, 0, 0, 0⟩, 1⟩ 5)).nonces 5 =
      emptyState.nonces 5 + 1 ∧
    (applyOp emptyState
        (.boostedMakeOp ⟨{ exampleCreate 10 10 0 with pair := exampleNftMakerPair }, 5,
          ⟨1, 0, 0, 0⟩, 99⟩ 5)).nonces = emptyState.nonces ∧
    (applyOp exampleSt1
        (.boostedTakeOp ⟨⟨1, 1, 10, WAD⟩, 7, ⟨0, 2, 0, 0⟩, 1⟩ 7)).nonces 7 =
      exampleSt1.nonces 7 + 1 := by
  refine ⟨?_, ?_, ?_⟩
  · exact ((boosted_nonce_rule.1 emptyState ⟨exampleCreate 10 10 0, 5, ⟨1, 0, 0, 0⟩, 1⟩ 5
      (applyOp emptyState (.boostedMakeOp ⟨exampleCreate 10 10 0, 5, ⟨1, 0, 0, 0⟩, 1⟩ 5)) 1
      rfl).1 rfl).1
  · exact (boosted_nonce_rule.1 emptyState
      ⟨{ exampleCreate 10 10 0 with pair := exampleNftMakerPair }, 5, ⟨1, 0, 0, 0⟩, 99⟩ 5
      (applyOp emptyState (.boostedMakeOp
        ⟨{ exampleCreate 10 10 0 with pair := exampleNftMakerPair }, 5, ⟨1, 0, 0, 0⟩, 99⟩ 5)) 1
      rfl).2 rfl
  · exact ((boosted_nonce_rule.2 exampleSt1 ⟨⟨1, 1, 10, WAD⟩, 7, ⟨0, 2, 0, 0⟩, 1⟩ 7
      { state := { (applyOp exampleSt1
          (.boostedTakeOp ⟨⟨1, 1, 10, WAD⟩, 7, ⟨0, 2, 0, 0⟩, 1⟩ 7)) with orders :=
            (applyOp exampleSt1
              (.boostedTakeOp ⟨⟨1, 1, 10, WAD⟩, 7, ⟨0, 2, 0, 0⟩, 1⟩ 7)).orders }
        filledMakerValue := 10, filledTakerValue := 10 }
      ⟨1, 10, 10, examplePair, 0, 0, false⟩ rfl rfl).1 rfl).1

end Dubiex

namespace Dubiex

/-- C5: chain reveal.  Creating order B with `ancestorOrderId = A.id` stores B
hidden and sets `A.successorOrderId = B.id`; fully filling A clears B's
hidden flag; and when B was cancelled first, fully filling A succeeds and
touches no state besides A's own slot — the dangling successor reference is
inert. -/
theorem chain_reveal :
    (∀ (st : DubiexState) (maker : Addr) (inp : MakeOrderInput) (anc : Order),
      st.killSwitchOn = false →
      inp.orderId = 0 →
      inp.makerValue ≠ 0 →
      inp.takerValue ≠ 0 →
      inp.ancestorOrderId ≠ 0 →
      inp.ancestorOrderId ≠ st.ordersCount maker + 1 →
      st.orders maker inp.ancestorOrderId = some anc →
      anc.successorOrderId = 0 →
      ∃ st', makeOrder st maker inp = .ok (st', st.ordersCount maker + 1) ∧
        st'.orders maker (st.ordersCount maker + 1) =
          some { id := st.ordersCount maker + 1, makerValue := inp.makerValue,
                 takerValue := inp.takerValue, pair := inp.pair,
                 ancestorOrderId := inp.ancestorOrderId, successorOrderId := 0,
                 isHidden := true } ∧
        st'.orders maker inp.ancestorOrderId =
          some { anc with successorOrderId := st.ordersCount maker + 1 }) ∧
    (∀ (st : DubiexState) (taker : Addr) (inp : TakeOrderInput) (ord succ : Order),
      st.killSwitchOn = false →
      st.orders inp.maker inp.id = some ord →
      ord.isHidden = false →
      ord.pair.makerCurrencyType.isFungible = true →
      ord.pair.takerCurrencyType.isFungible = true →
      inp.takerValue = ord.takerValue →
      ord.takerValue ≠ 0 →
      ord.takerValue * WAD / ord.makerValue ≤ inp.maxTakerMakerRatio →
      ord.successorOrderId ≠ 0 →
      ord.successorOrderId ≠ ord.id →
      st.orders inp.maker ord.successorOrderId = some succ →
      ∃ r, takeOrder st taker inp = .ok r ∧
        r.state.orders inp.maker ord.id = none ∧
        r.state.orders inp.maker ord.successorOrderId =
          some { succ with isHidden := false }) ∧
    (∀ (st : DubiexState) (taker : Addr) (inp : TakeOrderInput) (ord : Order),
      st.killSwitchOn = false →
      st.orders inp.maker inp.id = some ord →
      ord.isHidden = false →
      ord.pair.makerCurrencyType.isFungible = true →
      ord.pair.takerCurrencyType.isFungible = true →
      inp.takerValue = ord.takerValue →
      ord.takerValue ≠ 0 →
      ord.takerValue * WAD / ord.makerValue ≤ inp.maxTakerMakerRatio →
      ord.successorOrderId ≠ ord.id →
      st.orders inp.maker ord.successorOrderId = none →
      ∃ r, takeOrder st taker inp = .ok r ∧
        r.state.orders inp.maker ord.id = none ∧
        (∀ m j, ¬(m = inp.maker ∧ j = ord.id) →
          r.state.orders m j = st.orders m j)) := by
  refine ⟨?_, ?_, ?_⟩
  · intro st maker inp anc hks h0 hmv htv hanc0 hancnew hanc hsucc0
    refine ⟨{ st with
        orders := setOrder
                    (setOrder st.orders maker inp.ancestorOrderId
                      (some { anc with successorOrderId := st.ordersCount maker + 1 }))
                    maker (st.ordersCount maker + 1)
                    (some { id := st.ordersCount maker + 1, makerValue := inp.makerValue,
                            takerValue := inp.takerValue, pair := inp.pair,
                            ancestorOrderId := inp.ancestorOrderId, successorOrderId := 0,
                            isHidden := true })
        ordersCount := setCount st.ordersCount maker (st.ordersCount maker + 1) },
      ?_, ?_, ?_⟩
    · unfold makeOrder makeOrderCreate
      simp [h0, hks, hmv, htv, hanc0, hanc, hsucc0]
    · exact setOrder_self _ _ _ _
    · dsimp only
      rw [setOrder_ne _ _ _ _ _ _ (by omega)]
      exact setOrder_self _ _ _ _
  · intro st taker inp ord succ hks hord hvis hmf htf heq htv hratio hsid hsne hsucc
    have hfull : ord.takerValue - min inp.takerValue ord.takerValue = 0 := by
      rw [heq]
      simp
    refine ⟨finalizeFill st inp.maker ord
        (ord.makerValue * min inp.takerValue ord.takerValue / ord.takerValue)
        (min inp.takerValue ord.takerValue), ?_, ?_, ?_⟩
    · have hne : inp.takerValue ≠ 0 := by rw [heq]; exact htv
      simp [takeOrder, hks, hord, hvis, hne, Nat.not_lt.mpr hratio, hmf, htf]
    · exact finalizeFill_full_none st inp.maker ord _ _ hfull hsne
    · exact finalizeFill_full_reveal st inp.maker ord _ _ succ hfull hsid hsucc
  · intro st taker inp ord hks hord hvis hmf htf heq htv hratio hsne hmiss
    have hfull : ord.takerValue - min inp.takerValue ord.takerValue = 0 := by
      rw [heq]
      simp
    refine ⟨finalizeFill st inp.maker ord
        (ord.makerValue * min inp.takerValue ord.takerValue / ord.takerValue)
        (min inp.takerValue ord.takerValue), ?_, ?_, ?_⟩
    · have hne : inp.takerValue ≠ 0 := by rw [heq]; exact htv
      simp [takeOrder, hks, hord, hvis, hne, Nat.not_lt.mpr hratio, hmf, htf]
    · exact finalizeFill_full_none st inp.maker ord _ _ hfull hsne
    · exact finalizeFill_full_inert_frame st inp.maker ord _ _ hfull hmiss

/-- Witness for C5: in `exampleSt1`, chaining a 7/7 order onto order 1 hides
it as order 2 and links order 1 to it; in `exampleSt2`, fully filling order 1
reveals order 2; in `exampleSt2Cancelled` (order 2 cancelled first), fully
filling order 1 succeeds and leaves every other slot untouched. -/
theorem chain_reveal_witness :
    (∃ st', makeOrder exampleSt1 1 ⟨7, 7, examplePair, 0, 1, 0⟩ = .ok (st', 2) ∧
      st'.orders 1 2 = some ⟨2, 7, 7, examplePair, 1, 0, true⟩ ∧
      st'.orders 1 1 = some ⟨1, 10, 10, examplePair, 0, 2, false⟩) ∧
    (∃ r, takeOrder exampleSt2 3 ⟨1, 1, 10, WAD⟩ = .ok r ∧
      r.state.orders 1 1 = none ∧
      r.state.orders 1 2 = some ⟨2, 7, 7, examplePair, 1, 0, false⟩) ∧
    (∃ r, takeOrder exampleSt2Cancelled 3 ⟨1, 1, 10, WAD⟩ = .ok r ∧
      r.state.orders 1 1 = none ∧
      (∀ m j, ¬(m = 1 ∧ j = 1) →
        r.state.orders m j = exampleSt2Cancelled.orders m j)) := by
  refine ⟨?_, ?_, ?_⟩
  · have h := chain_reveal.1 exampleSt1 1 ⟨7, 7, examplePair, 0, 1, 0⟩
      ⟨1, 10, 10, examplePair, 0, 0, false⟩
      rfl rfl (by decide) (by decide) (by decide) (by decide) rfl rfl
    exact h
  · have h := chain_reveal.2.1 exampleSt2 3 ⟨1, 1, 10, WAD⟩
      ⟨1, 10, 10, examplePair, 0, 2, false⟩
      ⟨2, 7, 7, examplePair, 1, 0, true⟩
      rfl rfl rfl rfl rfl rfl (by decide) (by decide) (by decide) (by decide) rfl
    exact h
  · have h := chain_reveal.2.2 exampleSt2Cancelled 3 ⟨1, 1, 10, WAD⟩
      ⟨1, 10, 10, examplePair, 0, 2, false⟩
      rfl rfl rfl rfl rfl rfl (by decide) (by decide) (by decide) rfl
    exact h

end Dubiex

namespace Dubiex

/-- C6: the kill switch is write-once false-to-true.  Activation succeeds
exactly when the flag is still off and one of the two monitored supplies is
at or above the fixed threshold; once on, every activation fails with the
already-on error; and no sequence of entry-point invocations (including
supply drops below the threshold) ever returns the flag to false. -/
theorem killSwitch_write_once :
    (∀ st : DubiexState, st.killSwitchOn = false →
      killSwitchThreshold ≤ st.prpsTotalSupply ∨
        killSwitchThreshold ≤ st.dubiTotalSupply →
      activateKillSwitch st = .ok { st with killSwitchOn := true }) ∧
    (∀ st : DubiexState, st.killSwitchOn = false →
      st.prpsTotalSupply < killSwitchThreshold →
      st.dubiTotalSupply < killSwitchThreshold →
      activateKillSwitch st = .error .insufficientSupply) ∧
    (∀ st : DubiexState, st.killSwitchOn = true →
      activateKillSwitch st = .error .killSwitchAlreadyOn) ∧
    (∀ (st : DubiexState) (ops : List DubiexOp), st.killSwitchOn = true →
      (applyOps st ops).killSwitchOn = true) := by
  refine ⟨?_, ?_, ?_, ?_⟩
  · intro st h hsup
    unfold activateKillSwitch
    rw [if_neg (by simp [h]), if_pos hsup]
  · intro st h h1 h2
    unfold activateKillSwitch
    rw [if_neg (by simp [h]), if_neg (by omega)]
  · exact fun st h => activateKillSwitch_killed h
  · intro st ops h
    induction ops generalizing st with
    | nil => exact h
    | cons op rest ih => exact ih _ (applyOp_killSwitchOn st op h)

/-- Witness for C6: with the PRPS supply at the threshold activation
succeeds; with both supplies far below it fails; on `exampleKilled` a second
activation fails already-on; and after dropping the supplies to zero,
re-activating and trading, the flag is still on. -/
theorem killSwitch_write_once_witness :
    activateKillSwitch exampleSupplyHigh =
      .ok { exampleSupplyHigh with killSwitchOn := true } ∧
    activateKillSwitch exampleSt1 = .error .insufficientSupply ∧
    activateKillSwitch exampleKilled = .error .killSwitchAlreadyOn ∧
    (applyOps exampleKilled [.setSupplyOp 0 0, .activateOp, .cancelOp 2 ⟨1, 1⟩,
      .makeOp 1 (exampleCreate 3 3 0)]).killSwitchOn = true :=
  ⟨killSwitch_write_once.1 exampleSupplyHigh rfl (Or.inl (Nat.le_refl _)),
   killSwitch_write_once.2.1 exampleSt1 rfl (by decide) (by decide),
   killSwitch_write_once.2.2.1 exampleKilled rfl,
   killSwitch_write_once.2.2.2 exampleKilled
     [.setSupplyOp 0 0, .activateOp, .cancelOp 2 ⟨1, 1⟩,
      .makeOp 1 (exampleCreate 3 3 0)] rfl⟩

/-- C7: while the kill switch is tripped, every create and fill entry point
(direct, batch and relayed, single and batch) fails unconditionally; cancel
succeeds for any caller on an existing order, returning the remaining
`makerValue` to the maker; and the relayed cancel path (single and batch)
still fails for a signature that does not recover to the order's actual
maker. -/
theorem killSwitch_effects (st : DubiexState) (hks : st.killSwitchOn = true) :
    (∀ (maker : Addr) (inp : MakeOrderInput),
      makeOrder st maker inp = .error .killSwitchActive) ∧
    (∀ (taker : Addr) (inp : TakeOrderInput),
      takeOrder st taker inp = .error .killSwitchActive) ∧
    (∀ (maker : Addr) (inps : List MakeOrderInput),
      makeOrders st maker inps = .error .killSwitchActive) ∧
    (∀ (taker : Addr) (inps : List TakeOrderInput),
      takeOrders st taker inps = .error .killSwitchActive) ∧
    (∀ (msg : BoostedMakeOrder) (rcv : Addr),
      boostedMakeOrder st msg rcv = .error .killSwitchActive) ∧
    (∀ (msg : BoostedTakeOrder) (rcv : Addr),
      boostedTakeOrder st msg rcv = .error .killSwitchActive) ∧
    (∀ items, boostedMakeOrderBatch st items = .error .killSwitchActive) ∧
    (∀ items, boostedTakeOrderBatch st items = .error .killSwitchActive) ∧
    (∀ (caller : Addr) (inp : CancelOrderInput) (ord : Order),
      st.orders inp.maker inp.id = some ord →
      cancelOrder st caller inp =
        .ok ({ st with orders := setOrder st.orders inp.maker inp.id none },
             ord.makerValue)) ∧
    (∀ (msg : BoostedCancelOrder) (rcv : Addr) (ord : Order),
      st.orders msg.input.maker msg.input.id = some ord →
      rcv ≠ msg.input.maker →
      boostedCancelOrder st msg rcv = .error .invalidSignature ∧
      (∀ rest, boostedCancelOrderBatchGo st ((msg, rcv) :: rest) =
        .error .invalidSignature)) := by
  refine ⟨fun maker inp => makeOrder_killed maker inp hks,
    fun taker inp => takeOrder_killed taker inp hks,
    fun maker inps => makeOrders_killed maker inps hks,
    fun taker inps => takeOrders_killed taker inps hks,
    fun msg rcv => boostedMakeOrder_killed msg rcv hks,
    fun msg rcv => boostedTakeOrder_killed msg rcv hks,
    fun items => boostedMakeOrderBatch_killed items hks,
    fun items => boostedTakeOrderBatch_killed items hks,
    ?_, ?_⟩
  · intro caller inp ord hord
    unfold cancelOrder
    rw [hord]
    simp [hks]
  · intro msg rcv ord hord hrcv
    have hsingle : boostedCancelOrder st msg rcv = .error .invalidSignature := by
      unfold boostedCancelOrder
      rw [hord]
      simp [hrcv]
    refine ⟨hsingle, ?_⟩
    intro rest
    unfold boostedCancelOrderBatchGo
    rw [hsingle]

/-- Witness for C7: on `exampleKilled` (order 1 of maker 1 still open, flag
on) all create and fill entry points fail, anyone can cancel maker 1's
order for its remaining 10 units, and a relayed cancel whose signature
recovers to address 9 instead of maker 1 fails even in batch form. -/
theorem killSwitch_effects_witness :
    makeOrder exampleKilled 1 (exampleCreate 3 3 0) = .error .killSwitchActive ∧
    takeOrder exampleKilled 2 ⟨1, 1, 5, WAD⟩ = .error .killSwitchActive ∧
    makeOrders exampleKilled 1 [exampleCreate 3 3 0] = .error .killSwitchActive ∧
    takeOrders exampleKilled 2 [⟨1, 1, 5, WAD⟩] = .error .killSwitchActive ∧
    boostedMakeOrder exampleKilled ⟨exampleCreate 3 3 0, 5, ⟨0, 0, 0, 0⟩, 1⟩ 5 =
      .error .killSwitchActive ∧
    boostedTakeOrder exampleKilled ⟨⟨1, 1, 5, WAD⟩, 7, ⟨0, 0, 0, 0⟩, 1⟩ 7 =
      .error .killSwitchActive ∧
    boostedMakeOrderBatch exampleKilled [(⟨exampleCreate 3 3 0, 5, ⟨0, 0, 0, 0⟩, 1⟩, 5)] =
      .error .killSwitchActive ∧
    boostedTakeOrderBatch exampleKilled [(⟨⟨1, 1, 5, WAD⟩, 7, ⟨0, 0, 0, 0⟩, 1⟩, 7)] =
      .error .killSwitchActive ∧
    cancelOrder exampleKilled 2 ⟨1, 1⟩ =
      .ok ({ exampleKilled with orders := setOrder exampleKilled.orders 1 1 none }, 10) ∧
    boostedCancelOrder exampleKilled ⟨⟨1, 1⟩, ⟨0, 0, 0, 0⟩, 1⟩ 9 =
      .error .invalidSignature ∧
    boostedCancelOrderBatchGo exampleKilled [(⟨⟨1, 1⟩, ⟨0, 0, 0, 0⟩, 1⟩, 9)] =
      .error .invalidSignature := by
  have h := killSwitch_effects exampleKilled rfl
  exact ⟨h.1 1 (exampleCreate 3 3 0),
    h.2.1 2 ⟨1, 1, 5, WAD⟩,
    h.2.2.1 1 [exampleCreate 3 3 0],
    h.2.2.2.1 2 [⟨1, 1, 5, WAD⟩],
    h.2.2.2.2.1 ⟨exampleCreate 3 3 0, 5, ⟨0, 0, 0, 0⟩, 1⟩ 5,
    h.2.2.2.2.2.1 ⟨⟨1, 1, 5, WAD⟩, 7, ⟨0, 0, 0, 0⟩, 1⟩ 7,
    h.2.2.2.2.2.2.1 [(⟨exampleCreate 3 3 0, 5, ⟨0, 0, 0, 0⟩, 1⟩, 5)],
    h.2.2.2.2.2.2.2.1 [(⟨⟨1, 1, 5, WAD⟩, 7, ⟨0, 0, 0, 0⟩, 1⟩, 7)],
    h.2.2.2.2.2.2.2.2.1 2 ⟨1, 1⟩ ⟨1, 10, 10, examplePair, 0, 0, false⟩ rfl,
    (h.2.2.2.2.2.2.2.2.2 ⟨⟨1, 1⟩, ⟨0, 0, 0, 0⟩, 1⟩ 9
      ⟨1, 10, 10, examplePair, 0, 0, false⟩ rfl (by decide)).1,
    (h.2.2.2.2.2.2.2.2.2 ⟨⟨1, 1⟩, ⟨0, 0, 0, 0⟩, 1⟩ 9
      ⟨1, 10, 10, examplePair, 0, 0, false⟩ rfl (by decide)).2 []⟩

end Dubiex

namespace Dubiex

/-- Counterexample to C8 as stated: the isolated cancel batch does NOT skip
an item referencing an unauthorized order.  In `exampleTwoMakers`, caller 2
submits the non-empty batch [cancel maker 1's order 1, cancel their own
order 1]; the second item is valid (shown by the second conjunct), yet the
whole call aborts with the maker-authorization error and applies nothing —
matching the test suite (`dubiex.test.ts` lines 1256-1270), which expects
exactly this revert. -/
theorem cancelOrders_unauthorized_aborts :
    cancelOrders exampleTwoMakers 2 [⟨1, 1⟩, ⟨1, 2⟩] = .error .unauthorized ∧
    cancelOrder exampleTwoMakers 2 ⟨1, 2⟩ =
      .ok ({ exampleTwoMakers with
              orders := setOrder exampleTwoMakers.orders 2 1 none }, 5) :=
  ⟨rfl, rfl⟩

/-- C8 (amended): an isolated batch (`takeOrders`/`cancelOrders`) over a
non-empty list applies every valid item and skips items referencing missing
or hidden orders without aborting the call, and rejects an empty input list
outright; a cancel item whose caller is not the maker (while the breaker is
off) aborts the whole cancel batch; an atomic batch (`makeOrders`) with any
failing item fails as a whole and retains no item's state change. -/
theorem batch_fault_policies :
    (∀ (st : DubiexState) (taker : Addr), st.killSwitchOn = false →
      takeOrders st taker [] = .error .invalidInput) ∧
    (∀ (st : DubiexState) (caller : Addr),
      cancelOrders st caller [] = .error .invalidInput) ∧
    (∀ (st : DubiexState) (maker : Addr), st.killSwitchOn = false →
      makeOrders st maker [] = .error .invalidInput) ∧
    (∀ (st : DubiexState) (taker : Addr) (inps : List TakeOrderInput),
      st.killSwitchOn = false → inps ≠ [] →
      takeOrders st taker inps = .ok (takeOrdersGo taker st inps)) ∧
    (∀ (st : DubiexState) (taker : Addr) (inp : TakeOrderInput)
        (rest : List TakeOrderInput) (e : DubiexError),
      takeOrder st taker inp = .error e →
      takeOrdersGo taker st (inp :: rest) = takeOrdersGo taker st rest) ∧
    (∀ (st : DubiexState) (taker : Addr) (inp : TakeOrderInput)
        (rest : List TakeOrderInput) (r : FillResult),
      takeOrder st taker inp = .ok r →
      takeOrdersGo taker st (inp :: rest) = takeOrdersGo taker r.state rest) ∧
    (∀ (st : DubiexState) (taker : Addr) (inp : TakeOrderInput) (ord : Order),
      st.killSwitchOn = false →
      st.orders inp.maker inp.id = some ord → ord.isHidden = true →
      takeOrder st taker inp = .error .notFound) ∧
    (∀ (st : DubiexState) (caller : Addr) (inp : CancelOrderInput)
        (rest : List CancelOrderInput),
      cancelOrder st caller inp = .error .notFound →
      cancelOrdersGo caller st (inp :: rest) = cancelOrdersGo caller st rest) ∧
    (∀ (st : DubiexState) (caller : Addr) (inp : CancelOrderInput)
        (rest : List CancelOrderInput) (ord : Order),
      st.orders inp.maker inp.id = some ord → caller ≠ inp.maker →
      st.killSwitchOn = false →
      cancelOrdersGo caller st (inp :: rest) = .error .unauthorized) ∧
    (∀ (st : DubiexState) (maker : Addr) (inps : List MakeOrderInput)
        (e : DubiexError),
      makeOrdersGo maker st inps = .error e →
      applyOp st (.makeBatchOp maker inps) = st) := by
  refine ⟨?_, ?_, ?_, ?_, ?_, ?_, ?_, ?_, ?_, ?_⟩
  · intro st taker hks
    simp [takeOrders, hks]
  · intro st caller
    simp [cancelOrders]
  · intro st maker hks
    simp [makeOrders, hks]
  · intro st taker inps hks hne
    cases inps with
    | nil => exact absurd rfl hne
    | cons a l => simp [takeOrders, hks]
  · intro st taker inp rest e h
    simp only [takeOrdersGo, h]
  · intro st taker inp rest r h
    simp only [takeOrdersGo, h]
  · intro st taker inp ord hks hord hhid
    unfold takeOrder
    rw [hord]
    simp [hks, hhid]
  · intro st caller inp rest h
    simp only [cancelOrdersGo, h]
  · intro st caller inp rest ord hord hcaller hks
    have hC : cancelOrder st caller inp = .error .unauthorized := by
      unfold cancelOrder
      rw [hord]
      simp [hcaller, hks]
    simp only [cancelOrdersGo, hC]
  · intro st maker inps e h
    cases hks : st.killSwitchOn with
    | true => simp [applyOp, makeOrders_killed maker inps hks]
    | false =>
      cases inps with
      | nil => simp [makeOrdersGo] at h
      | cons a l => simp [applyOp, makeOrders, hks, h]

/-- Witness for C8: empty batches are rejected on the empty state; in
`exampleTwoMakers` the fill batch [fill 1 of maker 1 fully, fill the missing
order 99, fill 1 of maker 2 fully] succeeds and applies both valid items
(both orders deleted); an unauthorized cancel item aborts the batch; and the
atomic create batch [valid, zero makerValue] fails and leaves the empty
state untouched. -/
theorem batch_fault_policies_witness :
    takeOrders emptyState 3 [] = .error .invalidInput ∧
    cancelOrders emptyState 3 [] = .error .invalidInput ∧
    makeOrders emptyState 3 [] = .error .invalidInput ∧
    takeOrders exampleTwoMakers 3 [⟨1, 1, 10, WAD⟩, ⟨99, 1, 10, WAD⟩, ⟨1, 2, 5, WAD⟩] =
      .ok (takeOrdersGo 3 exampleTwoMakers
            [⟨1, 1, 10, WAD⟩, ⟨99, 1, 10, WAD⟩, ⟨1, 2, 5, WAD⟩]) ∧
    (takeOrdersGo 3 exampleTwoMakers
      [⟨1, 1, 10, WAD⟩, ⟨99, 1, 10, WAD⟩, ⟨1, 2, 5, WAD⟩]).orders 1 1 = none ∧
    (takeOrdersGo 3 exampleTwoMakers
      [⟨1, 1, 10, WAD⟩, ⟨99, 1, 10, WAD⟩, ⟨1, 2, 5, WAD⟩]).orders 2 1 = none ∧
    cancelOrdersGo 2 exampleTwoMakers [⟨1, 1⟩, ⟨1, 2⟩] = .error .unauthorized ∧
    applyOp emptyState (.makeBatchOp 1 [exampleCreate 1 1 0, exampleCreate 0 1 0]) =
      emptyState := by
  refine ⟨batch_fault_policies.1 emptyState 3 rfl,
    batch_fault_policies.2.1 emptyState 3,
    batch_fault_policies.2.2.1 emptyState 3 rfl,
    batch_fault_policies.2.2.2.1 exampleTwoMakers 3
      [⟨1, 1, 10, WAD⟩, ⟨99, 1, 10, WAD⟩, ⟨1, 2, 5, WAD⟩] rfl (by simp),
    by decide, by decide,
    batch_fault_policies.2.2.2.2.2.2.2.2.1 exampleTwoMakers 2 ⟨1, 1⟩ [⟨1, 2⟩]
      ⟨1, 10, 10, examplePair, 0, 0, false⟩ rfl (by decide) rfl,
    batch_fault_policies.2.2.2.2.2.2.2.2.2 emptyState 1
      [exampleCreate 1 1 0, exampleCreate 0 1 0] .invalidInput rfl⟩

end Dubiex

namespace Dubiex

/-- C3: for every `m, t < 2^96` and `a < 2^32`, unpacking the packed event
word yields exactly `(m, t, a)`; and packing places `m` in the low 96 bits,
`t` in the next 96 bits and `a` in the following 32 bits of the 256-bit
word, i.e. `pack m t a = m + t * 2^96 + a * 2^192`. -/
theorem pack_unpack_roundtrip (m t a : Nat)
    (hm : m < 2 ^ 96) (ht : t < 2 ^ 96) (ha : a < 2 ^ 32) :
    unpackPackedDataFromOrderEvent (packDataFromOrderEvent m t a) = ⟨m, t, a⟩ ∧
      packDataFromOrderEvent m t a = m + t * 2 ^ 96 + a * 2 ^ 192 := by
  constructor
  · rw [unpack_pack_mod, Nat.mod_eq_of_lt hm, Nat.mod_eq_of_lt ht, Nat.mod_eq_of_lt ha]
  · rw [packDataFromOrderEvent_eq_arith, Nat.mod_eq_of_lt hm, Nat.mod_eq_of_lt ht,
      Nat.mod_eq_of_lt ha]

/-- Witness for C3 at `m = 5`, `t = 7`, `a = 9`. -/
theorem pack_unpack_roundtrip_witness :
    unpackPackedDataFromOrderEvent (packDataFromOrderEvent 5 7 9) = ⟨5, 7, 9⟩ ∧
      packDataFromOrderEvent 5 7 9 = 5 + 7 * 2 ^ 96 + 9 * 2 ^ 192 :=
  pack_unpack_roundtrip 5 7 9 (by norm_num) (by norm_num) (by norm_num)

/-- C9: `packDataFromOrderEvent` is total on arbitrary non-negative inputs
and silently reduces each field modulo its width: for all `m, t, a`
(including values outside the 96/96/32-bit domain),
`unpack (pack m t a) = (m mod 2^96, t mod 2^96, a mod 2^32)` — out-of-range
values are truncated, never rejected. -/
theorem pack_truncates_mod (m t a : Nat) :
    unpackPackedDataFromOrderEvent (packDataFromOrderEvent m t a) =
      ⟨m % 2 ^ 96, t % 2 ^ 96, a % 2 ^ 32⟩ :=
  unpack_pack_mod m t a

/-- C10: whenever the caller omits `maxTakerMakerRatio` or passes a falsy
value such as the number `0`, `createSignedBoostedTakeOrderMessage` places
exactly `10^18` (a ratio ceiling of 1.0) in the signed intent's
`maxTakerMakerRatio` field — so the signer never unknowingly signs an
unbounded ceiling, and in these cases cannot sign a ceiling of literally
zero. -/
theorem takeOrder_maxRatio_default (arg : JsRatioArg) (h : arg.isFalsy = true) :
    takeOrderMessageMaxRatio arg = 1000000000000000000 ∧
      takeOrderMessageMaxRatio arg ≠ 0 := by
  unfold takeOrderMessageMaxRatio
  rw [h]
  exact ⟨rfl, by norm_num⟩

/-- Witness for C10 at the omitted argument and the number `0`. -/
theorem takeOrder_maxRatio_default_witness :
    takeOrderMessageMaxRatio .undef = 1000000000000000000 ∧
      takeOrderMessageMaxRatio (.num 0) ≠ 0 :=
  ⟨(takeOrder_maxRatio_default .undef (by decide)).1,
    (takeOrder_maxRatio_default (.num 0) (by decide)).2⟩

end Dubiex
